import Mathlib

/-!
Verification development for the "Hello World! Tube" Networks feature.

The definitions below are a shallow embedding of the Networks membership
engine: the Express route handlers registered by `setupNetworkRoutes`
(file `server_networks.js`) operating over the relational schema of the
Prisma migration (tables `Network`, `NetworkMembership`,
`NetworkInvitation`, `NetworkApplication`, and the profile columns added
to `User`).

Modelling conventions:
- Row ids and user ids are `Nat`, drawn from a monotone counter
  (`DB.nextId`), mirroring the never-reused unique ids the database
  generates.  Timestamp columns (`createdAt`, `joinedAt`) are omitted:
  no claim concerns them.  The surrogate `id` column of
  `NetworkMembership` is omitted: the code only ever addresses
  memberships through the unique pair (networkId, userId).
- Each route handler becomes a function `DB → args → DB × Except ApiError r`:
  the post-state is returned in both the success and the failure case,
  because the handlers are not transactional and a failure can leave
  earlier writes of the same handler in place.
- The unique indexes `NetworkMembership_networkId_userId_key`,
  `NetworkInvitation_networkId_invitedUserId_key` and
  `NetworkApplication_networkId_applicantId_key` are modelled inside the
  insert helpers: an insert that would duplicate the keyed pair fails.
  A store-level uniqueness rejection (Prisma error P2002) surfaces as
  `ApiError.conflict`, a missing row on update/delete (P2025) as
  `ApiError.notFound`, matching the error taxonomy of the specification;
  whether the handler translates the exception to an HTTP 400 or lets it
  propagate through the framework is wiring outside this model.
  Foreign-key constraints are modelled only through the
  `ON DELETE CASCADE` behaviour of network deletion; no claim exercises
  a foreign-key violation path.
- The zod checks `z.string().url()` and `z.string().email()` are
  abstracted by simple executable approximations (`isValidUrl`,
  `isValidEmail`); no claim depends on their exact extension.  The
  `z.string().uuid()` format check on the invited user id is trivial
  under the `Nat` id model.  String length is Lean codepoint length.
-/

namespace HWTube

/-- Row of the `User` table: the base columns used by `server.js`
(signup stores `email`, `passwordHash`, `displayName`) plus the profile
columns added by the migration (`bio`, `contactEmail`, `isPublicProfile`,
`phone`, `socialLinks`). -/
structure User where
  id : Nat
  email : String
  passwordHash : String
  displayName : String
  bio : Option String
  phone : Option String
  contactEmail : Option String
  socialLinks : Option (List (String × String))
  isPublicProfile : Bool
deriving DecidableEq, Repr

/-- Row of the `Network` table. -/
structure Network where
  id : Nat
  name : String
  description : Option String
  ownerId : Nat
  themes : List String
  logoUrl : Option String
deriving DecidableEq, Repr

/-- Row of the `NetworkMembership` table (surrogate id and `joinedAt`
omitted; the pair (networkId, userId) carries the unique index). -/
structure NetworkMembership where
  networkId : Nat
  userId : Nat
  role : String
  status : String
deriving DecidableEq, Repr

/-- Row of the `NetworkInvitation` table (`createdAt` omitted). -/
structure NetworkInvitation where
  id : Nat
  networkId : Nat
  invitedUserId : Nat
  inviterId : Nat
  status : String
  message : Option String
deriving DecidableEq, Repr

/-- Row of the `NetworkApplication` table (`createdAt` omitted). -/
structure NetworkApplication where
  id : Nat
  networkId : Nat
  applicantId : Nat
  message : Option String
  status : String
deriving DecidableEq, Repr

/-- The persistent store: one list per table, plus the fresh-id counter. -/
structure DB where
  users : List User
  networks : List Network
  memberships : List NetworkMembership
  invitations : List NetworkInvitation
  applications : List NetworkApplication
  nextId : Nat
deriving DecidableEq, Repr

/-- Error kinds of the specification, carrying the message string the
handler emits (or the store exception class that propagates). -/
inductive ApiError where
  | validation (msg : String)
  | notFound (msg : String)
  | forbidden (msg : String)
  | conflict (msg : String)
deriving DecidableEq, Repr

/-- Decidable equality of handler results, used to evaluate claims on
concrete stores. -/
instance {e a : Type} [DecidableEq e] [DecidableEq a] : DecidableEq (Except e a) := fun x y =>
  match x, y with
  | .error u, .error v =>
    if h : u = v then isTrue (by rw [h]) else isFalse (by intro hc; cases hc; exact h rfl)
  | .ok u, .ok v =>
    if h : u = v then isTrue (by rw [h]) else isFalse (by intro hc; cases hc; exact h rfl)
  | .error _, .ok _ => isFalse (by intro hc; cases hc)
  | .ok _, .error _ => isFalse (by intro hc; cases hc)

/-- Executable approximation of the zod `z.string().url()` check: a
non-empty scheme followed by "://". -/
def isValidUrl (s : String) : Bool :=
  match s.splitOn "://" with
  | scheme :: _ :: _ => scheme.length > 0
  | _ => false

/-- Executable approximation of the zod `z.string().email()` check:
exactly one "@" with non-empty local part and a domain containing ".". -/
def isValidEmail (s : String) : Bool :=
  match s.splitOn "@" with
  | local_ :: domain :: [] => local_.length > 0 && (domain.splitOn ".").length ≥ 2
  | _ => false

/-! ### Store lookup and insert helpers (Prisma calls + unique indexes) -/

/-- `prisma.network.findUnique({ where: { id } })`. -/
def findNetwork (db : DB) (id : Nat) : Option Network :=
  db.networks.find? (fun n => n.id == id)

/-- `prisma.networkMembership.findUnique({ where: { networkId_userId } })`. -/
def findMembership (db : DB) (networkId userId : Nat) : Option NetworkMembership :=
  db.memberships.find? (fun m => m.networkId == networkId && m.userId == userId)

/-- `prisma.networkInvitation.findUnique({ where: { id } })`. -/
def findInvitation (db : DB) (id : Nat) : Option NetworkInvitation :=
  db.invitations.find? (fun i => i.id == id)

/-- `prisma.networkApplication.findUnique({ where: { id } })`. -/
def findApplication (db : DB) (id : Nat) : Option NetworkApplication :=
  db.applications.find? (fun a => a.id == id)

/-- `prisma.networkMembership.create`: the unique index
`NetworkMembership_networkId_userId_key` rejects a duplicate pair. -/
def insertMembership (db : DB) (m : NetworkMembership) : Option DB :=
  match findMembership db m.networkId m.userId with
  | some _ => none
  | none => some { db with memberships := db.memberships ++ [m] }

/-- `prisma.networkInvitation.create`: the unique index
`NetworkInvitation_networkId_invitedUserId_key` rejects a duplicate pair. -/
def insertInvitation (db : DB) (i : NetworkInvitation) : Option DB :=
  match db.invitations.find? (fun j => j.networkId == i.networkId && j.invitedUserId == i.invitedUserId) with
  | some _ => none
  | none => some { db with invitations := db.invitations ++ [i] }

/-- `prisma.networkApplication.create`: the unique index
`NetworkApplication_networkId_applicantId_key` rejects a duplicate pair. -/
def insertApplication (db : DB) (a : NetworkApplication) : Option DB :=
  match db.applications.find? (fun b => b.networkId == a.networkId && b.applicantId == a.applicantId) with
  | some _ => none
  | none => some { db with applications := db.applications ++ [a] }

/-- `prisma.networkInvitation.update({ where: { id }, data: { status } })`. -/
def setInvitationStatus (db : DB) (id : Nat) (s : String) : DB :=
  { db with invitations := db.invitations.map (fun i => if i.id == id then { i with status := s } else i) }

/-- `prisma.networkApplication.update({ where: { id }, data: { status } })`. -/
def setApplicationStatus (db : DB) (id : Nat) (s : String) : DB :=
  { db with applications := db.applications.map (fun a => if a.id == id then { a with status := s } else a) }

/-- `prisma.network.delete({ where: { id } })` together with the
`ON DELETE CASCADE` foreign keys of the migration: the network row and
every membership, invitation and application referencing it go away. -/
def cascadeDeleteNetwork (db : DB) (networkId : Nat) : DB :=
  { db with
    networks := db.networks.filter (fun n => n.id != networkId)
    memberships := db.memberships.filter (fun m => m.networkId != networkId)
    invitations := db.invitations.filter (fun i => i.networkId != networkId)
    applications := db.applications.filter (fun a => a.networkId != networkId) }

/-- `prisma.networkMembership.delete({ where: { networkId_userId } })`
(the found row is unique under the index). -/
def deleteMembership (db : DB) (networkId userId : Nat) : DB :=
  { db with memberships := db.memberships.filter (fun m => !(m.networkId == networkId && m.userId == userId)) }

/-! ### Validation schemas (zod) -/

/-- Request body of POST /api/networks. -/
structure NetworkInput where
  name : String
  description : Option String
  themes : List String
  logoUrl : Option String
deriving DecidableEq, Repr

/-- The zod `networkSchema`: name 1..100 chars, description at most 500
chars when present, 1..10 themes, logoUrl a well-formed URL when present. -/
def networkSchemaCheck (d : NetworkInput) : Bool :=
  1 ≤ d.name.length && d.name.length ≤ 100 &&
  (match d.description with | none => true | some s => s.length ≤ 500) &&
  1 ≤ d.themes.length && d.themes.length ≤ 10 &&
  (match d.logoUrl with | none => true | some u => isValidUrl u)

/-- Request body of PATCH /api/networks/:id — `networkSchema.partial()`:
every field optional, present fields re-validated. -/
structure NetworkPatch where
  name : Option String
  description : Option String
  themes : Option (List String)
  logoUrl : Option String
deriving DecidableEq, Repr

/-- Validation of `networkSchema.partial()`. -/
def networkPatchCheck (p : NetworkPatch) : Bool :=
  (match p.name with | none => true | some s => 1 ≤ s.length && s.length ≤ 100) &&
  (match p.description with | none => true | some s => s.length ≤ 500) &&
  (match p.themes with | none => true | some ts => 1 ≤ ts.length && ts.length ≤ 10) &&
  (match p.logoUrl with | none => true | some u => isValidUrl u)

/-- Application of a partial update: only provided fields change. -/
def applyNetworkPatch (n : Network) (p : NetworkPatch) : Network :=
  { n with
    name := p.name.getD n.name
    description := match p.description with | some d => some d | none => n.description
    themes := p.themes.getD n.themes
    logoUrl := match p.logoUrl with | some u => some u | none => n.logoUrl }

/-- Request body of PATCH /api/users/profile — the zod `profileSchema`. -/
structure ProfilePatch where
  phone : Option String
  contactEmail : Option String
  bio : Option String
  socialLinks : Option (List (String × String))
  isPublicProfile : Option Bool
deriving DecidableEq, Repr

/-- Validation of `profileSchema`: contactEmail an email when present,
bio at most 1000 chars when present (socialLinks sub-fields are plain
optional strings; the website URL check is subsumed under the list
abstraction and exercised by no claim). -/
def profileSchemaCheck (p : ProfilePatch) : Bool :=
  (match p.contactEmail with | none => true | some e => isValidEmail e) &&
  (match p.bio with | none => true | some b => b.length ≤ 1000)

/-- Application of a profile update to the User row. -/
def applyProfilePatch (u : User) (p : ProfilePatch) : User :=
  { u with
    phone := match p.phone with | some s => some s | none => u.phone
    contactEmail := match p.contactEmail with | some s => some s | none => u.contactEmail
    bio := match p.bio with | some s => some s | none => u.bio
    socialLinks := match p.socialLinks with | some s => some s | none => u.socialLinks
    isPublicProfile := p.isPublicProfile.getD u.isPublicProfile }

/-! ### Route handlers

Each handler is translated statement by statement from
`setupNetworkRoutes`.  The caller argument is the authenticated
`req.user.id` supplied by `authMiddleware`. -/

/-- POST /api/networks: validate body, create the Network with
ownerId = caller, then create the owner membership (role owner,
status active).  The two creates are separate store calls, not a
transaction; a failure of the second leaves the network row in place. -/
def createNetwork (db : DB) (caller : Nat) (input : NetworkInput) :
    DB × Except ApiError Network :=
  if !networkSchemaCheck input then
    (db, .error (.validation "Invalid input"))
  else
    let n : Network :=
      { id := db.nextId, name := input.name, description := input.description
        ownerId := caller, themes := input.themes, logoUrl := input.logoUrl }
    let db1 : DB := { db with networks := db.networks ++ [n], nextId := db.nextId + 1 }
    match insertMembership db1 { networkId := n.id, userId := caller, role := "owner", status := "active" } with
    | none => (db1, .error (.conflict "Unique constraint failed"))
    | some db2 => (db2, .ok n)

/-- PATCH /api/networks/:id: 404 when absent, 403 unless owner, then
partial re-validation and field update. -/
def updateNetwork (db : DB) (caller : Nat) (networkId : Nat) (p : NetworkPatch) :
    DB × Except ApiError Network :=
  match findNetwork db networkId with
  | none => (db, .error (.notFound "Network not found"))
  | some n =>
    if n.ownerId != caller then (db, .error (.forbidden "Not authorized"))
    else if !networkPatchCheck p then (db, .error (.validation "Invalid input"))
    else
      let n1 := applyNetworkPatch n p
      ({ db with networks := db.networks.map (fun m => if m.id == networkId then n1 else m) }, .ok n1)

/-- DELETE /api/networks/:id: 404 when absent, 403 unless owner, then
`prisma.network.delete` with the cascading foreign keys. -/
def deleteNetwork (db : DB) (caller : Nat) (networkId : Nat) :
    DB × Except ApiError Unit :=
  match findNetwork db networkId with
  | none => (db, .error (.notFound "Network not found"))
  | some n =>
    if n.ownerId != caller then (db, .error (.forbidden "Not authorized"))
    else (cascadeDeleteNetwork db networkId, .ok ())

/-- POST /api/networks/:id/invite: 404 when the network is absent, 403
unless owner, body validation (message at most 500 chars), manual
already-member check, then creation of a pending invitation guarded by
the unique pair index. -/
def inviteUser (db : DB) (caller : Nat) (networkId : Nat) (targetUserId : Nat)
    (message : Option String) : DB × Except ApiError NetworkInvitation :=
  match findNetwork db networkId with
  | none => (db, .error (.notFound "Network not found"))
  | some n =>
    if n.ownerId != caller then (db, .error (.forbidden "Only owner can invite"))
    else if !(match message with | none => true | some m => m.length ≤ 500) then
      (db, .error (.validation "Invalid input"))
    else
      match findMembership db networkId targetUserId with
      | some _ => (db, .error (.conflict "User already member"))
      | none =>
        let inv : NetworkInvitation :=
          { id := db.nextId, networkId := networkId, invitedUserId := targetUserId
            inviterId := caller, status := "pending", message := message }
        match insertInvitation db inv with
        | none => (db, .error (.conflict "Unique constraint failed"))
        | some db1 => ({ db1 with nextId := db.nextId + 1 }, .ok inv)

/-- PATCH /api/invitations/:id: action must be accept or reject; 404 when
the invitation is absent; 403 unless the caller is the invited user.  On
accept the membership create runs first and the status update second; a
uniqueness rejection of the create aborts the handler before the status
update.  The current status of the invitation is never inspected. -/
def respondToInvitation (db : DB) (caller : Nat) (invitationId : Nat) (action : String) :
    DB × Except ApiError Unit :=
  if !(action == "accept" || action == "reject") then
    (db, .error (.validation "Invalid action"))
  else
    match findInvitation db invitationId with
    | none => (db, .error (.notFound "Invitation not found"))
    | some inv =>
      if inv.invitedUserId != caller then (db, .error (.forbidden "Not authorized"))
      else if action == "accept" then
        match insertMembership db { networkId := inv.networkId, userId := caller, role := "member", status := "active" } with
        | none => (db, .error (.conflict "Unique constraint failed"))
        | some db1 => (setInvitationStatus db1 invitationId "accepted", .ok ())
      else
        (setInvitationStatus db invitationId "rejected", .ok ())

/-- POST /api/networks/:id/apply: body validation, manual already-member
check, then creation of a pending application guarded by the unique pair
index (the handler never checks that the network exists). -/
def applyToNetwork (db : DB) (caller : Nat) (networkId : Nat) (message : Option String) :
    DB × Except ApiError NetworkApplication :=
  if !(match message with | none => true | some m => m.length ≤ 500) then
    (db, .error (.validation "Invalid input"))
  else
    match findMembership db networkId caller with
    | some _ => (db, .error (.conflict "Already member"))
    | none =>
      let a : NetworkApplication :=
        { id := db.nextId, networkId := networkId, applicantId := caller
          message := message, status := "pending" }
      match insertApplication db a with
      | none => (db, .error (.conflict "Unique constraint failed"))
      | some db1 => ({ db1 with nextId := db.nextId + 1 }, .ok a)

/-- PATCH /api/networks/:networkId/applications/:appId: action must be
approve or reject; the ownership check runs against the network of the
path; the application is fetched by its id alone and its own networkId
is never compared with the path.  On approve the membership is created
for the PATH networkId, first, and the status update second. -/
def respondToApplication (db : DB) (caller : Nat) (networkId : Nat) (applicationId : Nat)
    (action : String) : DB × Except ApiError Unit :=
  if !(action == "approve" || action == "reject") then
    (db, .error (.validation "Invalid action"))
  else
    match findNetwork db networkId with
    | none => (db, .error (.notFound "Network not found"))
    | some n =>
      if n.ownerId != caller then (db, .error (.forbidden "Not authorized"))
      else
        match findApplication db applicationId with
        | none => (db, .error (.notFound "Application not found"))
        | some app =>
          if action == "approve" then
            match insertMembership db { networkId := networkId, userId := app.applicantId, role := "member", status := "active" } with
            | none => (db, .error (.conflict "Unique constraint failed"))
            | some db1 => (setApplicationStatus db1 applicationId "approved", .ok ())
          else
            (setApplicationStatus db applicationId "rejected", .ok ())

/-- DELETE /api/networks/:id/members/:userId: 404 when the network is
absent, 403 unless owner, 400 on self-removal, then the membership
delete, whose missing-row rejection (P2025) surfaces as notFound. -/
def removeMember (db : DB) (caller : Nat) (networkId : Nat) (targetUserId : Nat) :
    DB × Except ApiError Unit :=
  match findNetwork db networkId with
  | none => (db, .error (.notFound "Network not found"))
  | some n =>
    if n.ownerId != caller then (db, .error (.forbidden "Not authorized"))
    else if targetUserId == caller then (db, .error (.validation "Cannot remove yourself"))
    else
      match findMembership db networkId targetUserId with
      | none => (db, .error (.notFound "Record not found"))
      | some _ => (deleteMembership db networkId targetUserId, .ok ())

/-- PATCH /api/users/profile: validate the body, then
`prisma.user.update` on the caller row, returning the FULL updated User
row (no select clause restricts the columns).  A missing caller row
(P2025) surfaces as notFound. -/
def updateProfile (db : DB) (caller : Nat) (p : ProfilePatch) :
    DB × Except ApiError User :=
  if !profileSchemaCheck p then (db, .error (.validation "Invalid input"))
  else
    match db.users.find? (fun u => u.id == caller) with
    | none => (db, .error (.notFound "Record not found"))
    | some u =>
      let u1 := applyProfilePatch u p
      ({ db with users := db.users.map (fun v => if v.id == caller then u1 else v) }, .ok u1)

/-- Projection returned by GET /api/users/:id/profile (the select
clause; `createdAt` omitted as everywhere in the model). -/
structure ProfileView where
  id : Nat
  displayName : String
  bio : Option String
  phone : Option String
  contactEmail : Option String
  socialLinks : Option (List (String × String))
  isPublicProfile : Bool
deriving DecidableEq, Repr

/-- GET /api/users/:id/profile: 404 when the user is absent; when
isPublicProfile is false the handler deletes phone and contactEmail from
the response.  The route carries no authMiddleware and never reads the
identity of the requester: the `viewer` argument is kept only so that
caller-sensitivity claims can be stated, and is unused on the right-hand
side exactly because the source ignores it. -/
def viewProfile (db : DB) (viewer : Nat) (targetId : Nat) :
    Except ApiError ProfileView :=
  let _ := viewer
  match db.users.find? (fun u => u.id == targetId) with
  | none => .error (.notFound "User not found")
  | some u =>
    if !u.isPublicProfile then
      .ok { id := u.id, displayName := u.displayName, bio := u.bio
            phone := none, contactEmail := none
            socialLinks := u.socialLinks, isPublicProfile := u.isPublicProfile }
    else
      .ok { id := u.id, displayName := u.displayName, bio := u.bio
            phone := u.phone, contactEmail := u.contactEmail
            socialLinks := u.socialLinks, isPublicProfile := u.isPublicProfile }

/-! ### Operation alphabet and reachability

One constructor per mutating engine operation; `applyOp` runs the
handler and keeps its post-state whatever the outcome, so reachability
quantifies over arbitrary interleavings of successful and failing
calls. -/

/-- Mutating engine operations with their request arguments. -/
inductive EngineOp where
  | createNetwork (caller : Nat) (input : NetworkInput)
  | updateNetwork (caller : Nat) (networkId : Nat) (p : NetworkPatch)
  | deleteNetwork (caller : Nat) (networkId : Nat)
  | inviteUser (caller : Nat) (networkId : Nat) (targetUserId : Nat) (message : Option String)
  | respondToInvitation (caller : Nat) (invitationId : Nat) (action : String)
  | applyToNetwork (caller : Nat) (networkId : Nat) (message : Option String)
  | respondToApplication (caller : Nat) (networkId : Nat) (applicationId : Nat) (action : String)
  | removeMember (caller : Nat) (networkId : Nat) (targetUserId : Nat)
  | updateProfile (caller : Nat) (p : ProfilePatch)
deriving Repr

/-- Post-state of one engine operation (error or not). -/
def applyOp (db : DB) (op : EngineOp) : DB :=
  match op with
  | .createNetwork c i => (createNetwork db c i).1
  | .updateNetwork c n p => (updateNetwork db c n p).1
  | .deleteNetwork c n => (deleteNetwork db c n).1
  | .inviteUser c n t m => (inviteUser db c n t m).1
  | .respondToInvitation c i a => (respondToInvitation db c i a).1
  | .applyToNetwork c n m => (applyToNetwork db c n m).1
  | .respondToApplication c n i a => (respondToApplication db c n i a).1
  | .removeMember c n t => (removeMember db c n t).1
  | .updateProfile c p => (updateProfile db c p).1

/-- Post-state of a sequence of engine operations. -/
def applyOps (db : DB) (ops : List EngineOp) : DB :=
  ops.foldl applyOp db

/-- State of a fresh deployment: users registered through signup, all
Networks tables empty, the id counter ahead of every user id. -/
def initDB (users : List User) (nextId : Nat) : DB :=
  { users := users, networks := [], memberships := [], invitations := []
    applications := [], nextId := nextId }

/-! ### Invariants -/

/-- The unique index on (networkId, userId): no two membership rows share
the pair. -/
def membershipsPairUnique (db : DB) : Prop :=
  db.memberships.Pairwise (fun a b => ¬(a.networkId = b.networkId ∧ a.userId = b.userId))

/-- The unique index on (networkId, invitedUserId): no two invitation
rows share the pair. -/
def invitationsPairUnique (db : DB) : Prop :=
  db.invitations.Pairwise (fun a b => ¬(a.networkId = b.networkId ∧ a.invitedUserId = b.invitedUserId))

/-- Every invitation id was drawn from the counter. -/
def invIdsBounded (db : DB) : Prop :=
  ∀ i ∈ db.invitations, i.id < db.nextId

/-- Every membership references a network id drawn from the counter
(memberships are only ever created for networks that exist, and network
ids come from the counter). -/
def memNetIdsBounded (db : DB) : Prop :=
  ∀ m ∈ db.memberships, m.networkId < db.nextId

/-! ### Sample data for concrete executions -/

/-- Registered user with a private profile and stored contact data. -/
def sampleUserA : User :=
  ⟨1, "a@example.com", "hashA", "Alice", none, some "555-0100", some "alice@contact.example", none, false⟩

/-- Registered user with a public profile. -/
def sampleUserB : User := ⟨2, "b@example.com", "hashB", "Bob", none, none, none, none, true⟩

/-- Third registered user. -/
def sampleUserC : User := ⟨3, "c@example.com", "hashC", "Cara", none, none, none, none, true⟩

/-- Valid creation payload for a network. -/
def sampleNetworkInput : NetworkInput := ⟨"Tech Reviewers", none, ["tech"], none⟩

/-- Scenario: Alice (id 1) creates a network (id 10), invites Bob (id 2,
invitation id 11), and Bob rejects the invitation. -/
def scenarioOps : List EngineOp :=
  [EngineOp.createNetwork 1 sampleNetworkInput,
   EngineOp.inviteUser 1 10 2 none,
   EngineOp.respondToInvitation 2 11 "reject"]

/-- The store after `scenarioOps`: invitation 11 for (network 10, Bob)
has status rejected and Bob holds no membership. -/
def scenarioDB : DB := applyOps (initDB [sampleUserA, sampleUserB] 10) scenarioOps

/-- The store after Bob additionally accepts the (already rejected)
invitation 11: Bob is now a member and the invitation reads accepted. -/
def acceptedDB : DB := (respondToInvitation scenarioDB 2 11 "accept").1

/-- The network row created by `scenarioOps`. -/
def sampleNetwork : Network := ⟨10, "Tech Reviewers", none, 1, ["tech"], none⟩

/-- Cross-network scenario: Alice owns network 10, Bob owns network 11,
and Cara (id 3) files application 12 to network 11. -/
def crossDB : DB :=
  applyOps (initDB [sampleUserA, sampleUserB, sampleUserC] 10)
    [EngineOp.createNetwork 1 ⟨"X", none, ["t"], none⟩,
     EngineOp.createNetwork 2 ⟨"Y", none, ["t"], none⟩,
     EngineOp.applyToNetwork 3 11 none]

/-! ### Helper lemmas: how each operation can change a table -/

/-- Inversion of a successful membership insert: the keyed pair was
absent and the row was appended. -/
lemma insertMembership_eq_some {db db' : DB} {m : NetworkMembership}
    (h : insertMembership db m = some db') :
    findMembership db m.networkId m.userId = none ∧
    db' = { db with memberships := db.memberships ++ [m] } := by
  unfold insertMembership at h
  rcases hf : findMembership db m.networkId m.userId with _ | x
  · rw [hf] at h
    simp only [Option.some.injEq] at h
    exact ⟨rfl, h.symm⟩
  · rw [hf] at h
    simp at h

/-- Inversion of a successful invitation insert: the keyed pair was
absent and the row was appended. -/
lemma insertInvitation_eq_some {db db' : DB} {i : NetworkInvitation}
    (h : insertInvitation db i = some db') :
    db.invitations.find? (fun j => j.networkId == i.networkId && j.invitedUserId == i.invitedUserId) = none ∧
    db' = { db with invitations := db.invitations ++ [i] } := by
  unfold insertInvitation at h
  rcases hf : db.invitations.find? (fun j => j.networkId == i.networkId && j.invitedUserId == i.invitedUserId) with _ | x
  · rw [hf] at h
    simp only [Option.some.injEq] at h
    exact ⟨hf, h.symm⟩
  · rw [hf] at h
    simp at h

/-- Case analysis on what one operation does to the memberships table:
it leaves it alone, appends a row whose keyed pair was absent (the
checked insert), or removes rows (member removal, cascade). -/
lemma applyOp_memberships_cases (db : DB) (op : EngineOp) :
    (applyOp db op).memberships = db.memberships ∨
    (∃ m, (applyOp db op).memberships = db.memberships ++ [m] ∧
      findMembership db m.networkId m.userId = none) ∨
    (∃ p, (applyOp db op).memberships = db.memberships.filter p) := by
  rcases op with ⟨c, i⟩ | ⟨c, nid, p⟩ | ⟨c, nid⟩ | ⟨c, nid, t, msg⟩ | ⟨c, iid, act⟩ | ⟨c, nid, msg⟩ | ⟨c, nid, aid, act⟩ | ⟨c, nid, t⟩ | ⟨c, p⟩
  · simp only [applyOp, createNetwork]
    split
    · exact Or.inl rfl
    · split
      · exact Or.inl rfl
      · rename_i db2 h
        obtain ⟨hnone, hdb2⟩ := insertMembership_eq_some h
        subst hdb2
        exact Or.inr (Or.inl ⟨_, rfl, hnone⟩)
  · simp only [applyOp, updateNetwork]
    split
    · exact Or.inl rfl
    · split
      · exact Or.inl rfl
      · split
        · exact Or.inl rfl
        · exact Or.inl rfl
  · simp only [applyOp, deleteNetwork]
    split
    · exact Or.inl rfl
    · split
      · exact Or.inl rfl
      · exact Or.inr (Or.inr ⟨_, rfl⟩)
  · simp only [applyOp, inviteUser]
    split
    · exact Or.inl rfl
    · split
      · exact Or.inl rfl
      · split
        · exact Or.inl rfl
        · split
          · exact Or.inl rfl
          · split
            · exact Or.inl rfl
            · rename_i db1 h
              unfold insertInvitation at h
              rcases hf : db.invitations.find? _ with _ | x
              · rw [hf] at h
                simp only [Option.some.injEq] at h
                rw [← h]
                exact Or.inl rfl
              · rw [hf] at h
                simp at h
  · simp only [applyOp, respondToInvitation]
    split
    · exact Or.inl rfl
    · split
      · exact Or.inl rfl
      · split
        · exact Or.inl rfl
        · split
          · split
            · exact Or.inl rfl
            · rename_i db1 h
              obtain ⟨hnone, hdb1⟩ := insertMembership_eq_some h
              subst hdb1
              exact Or.inr (Or.inl ⟨_, rfl, hnone⟩)
          · exact Or.inl rfl
  · simp only [applyOp, applyToNetwork]
    split
    · exact Or.inl rfl
    · split
      · exact Or.inl rfl
      · split
        · exact Or.inl rfl
        · rename_i db1 h
          unfold insertApplication at h
          rcases hf : db.applications.find? _ with _ | x
          · rw [hf] at h
            simp only [Option.some.injEq] at h
            rw [← h]
            exact Or.inl rfl
          · rw [hf] at h
            simp at h
  · simp only [applyOp, respondToApplication]
    split
    · exact Or.inl rfl
    · split
      · exact Or.inl rfl
      · split
        · exact Or.inl rfl
        · split
          · exact Or.inl rfl
          · split
            · split
              · exact Or.inl rfl
              · rename_i db1 h
                obtain ⟨hnone, hdb1⟩ := insertMembership_eq_some h
                subst hdb1
                exact Or.inr (Or.inl ⟨_, rfl, hnone⟩)
            · exact Or.inl rfl
  · simp only [applyOp, removeMember]
    split
    · exact Or.inl rfl
    · split
      · exact Or.inl rfl
      · split
        · exact Or.inl rfl
        · split
          · exact Or.inl rfl
          · exact Or.inr (Or.inr ⟨_, rfl⟩)
  · simp only [applyOp, updateProfile]
    split
    · exact Or.inl rfl
    · split
      · exact Or.inl rfl
      · exact Or.inl rfl

/-- Pair uniqueness of memberships survives every single operation. -/
lemma memPairUnique_preserved (db : DB) (op : EngineOp) :
    membershipsPairUnique db → membershipsPairUnique (applyOp db op) := by
  intro h
  rcases applyOp_memberships_cases db op with heq | ⟨m, heq, hnone⟩ | ⟨p, heq⟩
  · rw [membershipsPairUnique, heq]
    exact h
  · rw [membershipsPairUnique, heq, List.pairwise_append]
    refine ⟨h, List.pairwise_singleton _ _, ?_⟩
    intro a ha b hb
    simp only [List.mem_singleton] at hb
    subst hb
    rw [findMembership, List.find?_eq_none] at hnone
    have hne := hnone a ha
    simp only [Bool.and_eq_true, beq_iff_eq, not_and] at hne
    rintro ⟨h1, h2⟩
    exact hne h1 h2
  · rw [membershipsPairUnique, heq]
    exact List.Pairwise.sublist (List.filter_sublist _) h

/-- Case analysis on what one operation does to the invitations table,
together with how the id counter moves. -/
lemma applyOp_invitations_cases (db : DB) (op : EngineOp) :
    ((applyOp db op).invitations = db.invitations ∧ db.nextId ≤ (applyOp db op).nextId) ∨
    (∃ i, (applyOp db op).invitations = db.invitations ++ [i] ∧ i.id = db.nextId ∧
      (applyOp db op).nextId = db.nextId + 1 ∧
      db.invitations.find? (fun j => j.networkId == i.networkId && j.invitedUserId == i.invitedUserId) = none) ∨
    ((∃ p, (applyOp db op).invitations = db.invitations.filter p) ∧ (applyOp db op).nextId = db.nextId) ∨
    (∃ tid s, (s = "accepted" ∨ s = "rejected") ∧
      (applyOp db op).invitations
        = db.invitations.map (fun i => if i.id == tid then { i with status := s } else i) ∧
      (applyOp db op).nextId = db.nextId) := by
  rcases op with ⟨c, i⟩ | ⟨c, nid, p⟩ | ⟨c, nid⟩ | ⟨c, nid, t, msg⟩ | ⟨c, iid, act⟩ | ⟨c, nid, msg⟩ | ⟨c, nid, aid, act⟩ | ⟨c, nid, t⟩ | ⟨c, p⟩
  · simp only [applyOp, createNetwork]
    split
    · exact Or.inl ⟨rfl, Nat.le_refl _⟩
    · split
      · exact Or.inl ⟨rfl, Nat.le_succ _⟩
      · rename_i db2 h
        obtain ⟨_, hdb2⟩ := insertMembership_eq_some h
        subst hdb2
        exact Or.inl ⟨rfl, Nat.le_succ _⟩
  · simp only [applyOp, updateNetwork]
    split
    · exact Or.inl ⟨rfl, Nat.le_refl _⟩
    · split
      · exact Or.inl ⟨rfl, Nat.le_refl _⟩
      · split
        · exact Or.inl ⟨rfl, Nat.le_refl _⟩
        · exact Or.inl ⟨rfl, Nat.le_refl _⟩
  · simp only [applyOp, deleteNetwork]
    split
    · exact Or.inl ⟨rfl, Nat.le_refl _⟩
    · split
      · exact Or.inl ⟨rfl, Nat.le_refl _⟩
      · exact Or.inr (Or.inr (Or.inl ⟨⟨_, rfl⟩, rfl⟩))
  · simp only [applyOp, inviteUser]
    split
    · exact Or.inl ⟨rfl, Nat.le_refl _⟩
    · split
      · exact Or.inl ⟨rfl, Nat.le_refl _⟩
      · split
        · exact Or.inl ⟨rfl, Nat.le_refl _⟩
        · split
          · exact Or.inl ⟨rfl, Nat.le_refl _⟩
          · split
            · exact Or.inl ⟨rfl, Nat.le_refl _⟩
            · rename_i db1 h
              obtain ⟨hnone, hdb1⟩ := insertInvitation_eq_some h
              subst hdb1
              exact Or.inr (Or.inl ⟨_, rfl, rfl, rfl, hnone⟩)
  · simp only [applyOp, respondToInvitation]
    split
    · exact Or.inl ⟨rfl, Nat.le_refl _⟩
    · split
      · exact Or.inl ⟨rfl, Nat.le_refl _⟩
      · split
        · exact Or.inl ⟨rfl, Nat.le_refl _⟩
        · split
          · split
            · exact Or.inl ⟨rfl, Nat.le_refl _⟩
            · rename_i db1 h
              obtain ⟨_, hdb1⟩ := insertMembership_eq_some h
              subst hdb1
              exact Or.inr (Or.inr (Or.inr ⟨iid, "accepted", Or.inl rfl, rfl, rfl⟩))
          · exact Or.inr (Or.inr (Or.inr ⟨iid, "rejected", Or.inr rfl, rfl, rfl⟩))
  · simp only [applyOp, applyToNetwork]
    split
    · exact Or.inl ⟨rfl, Nat.le_refl _⟩
    · split
      · exact Or.inl ⟨rfl, Nat.le_refl _⟩
      · split
        · exact Or.inl ⟨rfl, Nat.le_refl _⟩
        · rename_i db1 h
          unfold insertApplication at h
          rcases hf : db.applications.find? _ with _ | x
          · rw [hf] at h
            simp only [Option.some.injEq] at h
            rw [← h]
            exact Or.inl ⟨rfl, Nat.le_succ _⟩
          · rw [hf] at h
            simp at h
  · simp only [applyOp, respondToApplication]
    split
    · exact Or.inl ⟨rfl, Nat.le_refl _⟩
    · split
      · exact Or.inl ⟨rfl, Nat.le_refl _⟩
      · split
        · exact Or.inl ⟨rfl, Nat.le_refl _⟩
        · split
          · exact Or.inl ⟨rfl, Nat.le_refl _⟩
          · split
            · split
              · exact Or.inl ⟨rfl, Nat.le_refl _⟩
              · rename_i db1 h
                obtain ⟨_, hdb1⟩ := insertMembership_eq_some h
                subst hdb1
                exact Or.inl ⟨rfl, Nat.le_refl _⟩
            · exact Or.inl ⟨rfl, Nat.le_refl _⟩
  · simp only [applyOp, removeMember]
    split
    · exact Or.inl ⟨rfl, Nat.le_refl _⟩
    · split
      · exact Or.inl ⟨rfl, Nat.le_refl _⟩
      · split
        · exact Or.inl ⟨rfl, Nat.le_refl _⟩
        · split
          · exact Or.inl ⟨rfl, Nat.le_refl _⟩
          · exact Or.inl ⟨rfl, Nat.le_refl _⟩
  · simp only [applyOp, updateProfile]
    split
    · exact Or.inl ⟨rfl, Nat.le_refl _⟩
    · split
      · exact Or.inl ⟨rfl, Nat.le_refl _⟩
      · exact Or.inl ⟨rfl, Nat.le_refl _⟩

/-- Invitation ids staying below the counter survives every operation. -/
lemma invIdsBounded_preserved (db : DB) (op : EngineOp) :
    invIdsBounded db → invIdsBounded (applyOp db op) := by
  intro h
  rcases applyOp_invitations_cases db op with ⟨heq, hle⟩ | ⟨i, heq, hid, hnext, _⟩ |
    ⟨⟨p, heq⟩, hnext⟩ | ⟨tid, s, _, heq, hnext⟩
  · intro j hj
    rw [heq] at hj
    exact lt_of_lt_of_le (h j hj) hle
  · intro j hj
    rw [heq] at hj
    rw [hnext]
    rcases List.mem_append.mp hj with hj | hj
    · have := h j hj
      omega
    · simp only [List.mem_singleton] at hj
      subst hj
      omega
  · intro j hj
    rw [heq] at hj
    rw [hnext]
    exact h j (List.mem_of_mem_filter hj)
  · intro j hj
    rw [heq] at hj
    rw [hnext]
    obtain ⟨i0, hi0, hji⟩ := List.mem_map.mp hj
    subst hji
    have := h i0 hi0
    by_cases hc : (i0.id == tid) = true <;> simp [hc] <;> exact this

/-- Pair uniqueness of invitations survives every single operation. -/
lemma invPairUnique_preserved (db : DB) (op : EngineOp) :
    invitationsPairUnique db → invitationsPairUnique (applyOp db op) := by
  intro h
  rcases applyOp_invitations_cases db op with ⟨heq, _⟩ | ⟨i, heq, _, _, hnone⟩ |
    ⟨⟨p, heq⟩, _⟩ | ⟨tid, s, _, heq, _⟩
  · rw [invitationsPairUnique, heq]
    exact h
  · rw [invitationsPairUnique, heq, List.pairwise_append]
    refine ⟨h, List.pairwise_singleton _ _, ?_⟩
    intro a ha b hb
    simp only [List.mem_singleton] at hb
    subst hb
    rw [List.find?_eq_none] at hnone
    have hne := hnone a ha
    simp only [Bool.and_eq_true, beq_iff_eq, not_and] at hne
    rintro ⟨h1, h2⟩
    exact hne h1 h2
  · rw [invitationsPairUnique, heq]
    exact List.Pairwise.sublist (List.filter_sublist _) h
  · rw [invitationsPairUnique, heq]
    refine List.Pairwise.map _ ?_ h
    intro a b hab
    by_cases ha : (a.id == tid) = true <;> by_cases hb : (b.id == tid) = true <;>
      simp [ha, hb] <;> exact fun h1 h2 => hab ⟨h1, h2⟩

/-- If every row carrying a given id is already out of pending, one more
operation cannot bring any row with that id back to pending. -/
lemma nonPending_preserved (db : DB) (op : EngineOp) (tid : Nat)
    (hbound : invIdsBounded db)
    (hex : ∃ i ∈ db.invitations, i.id = tid)
    (hnp : ∀ i ∈ db.invitations, i.id = tid → i.status ≠ "pending") :
    ∀ i' ∈ (applyOp db op).invitations, i'.id = tid → i'.status ≠ "pending" := by
  rcases applyOp_invitations_cases db op with ⟨heq, _⟩ | ⟨i, heq, hid, _, _⟩ |
    ⟨⟨p, heq⟩, _⟩ | ⟨utid, s, hs, heq, _⟩
  · rw [heq]
    exact hnp
  · rw [heq]
    intro i' hi' hids
    rcases List.mem_append.mp hi' with hmem | hmem
    · exact hnp i' hmem hids
    · simp only [List.mem_singleton] at hmem
      subst hmem
      obtain ⟨j, hj, hjid⟩ := hex
      have hlt := hbound j hj
      exfalso
      omega
  · rw [heq]
    intro i' hi'
    exact hnp i' (List.mem_of_mem_filter hi')
  · rw [heq]
    intro i' hi' hids
    obtain ⟨i0, hi0, hji⟩ := List.mem_map.mp hi'
    subst hji
    by_cases hc : (i0.id == utid) = true
    · simp only [hc, if_true]
      rcases hs with hs | hs <;> subst hs <;> simp
    · simp only [hc, if_false] at hids ⊢
      exact hnp i0 hi0 hids

/-! ### Claim theorems -/

/-- C1: when the invited user already holds a membership in the network
of the invitation, accepting the invitation fails with Conflict from the
membership uniqueness constraint, and the whole store — in particular
the status field of the invitation row — is left exactly at its pre-call
value, because the membership insert is attempted before the status
update and its rejection aborts the handler. -/
theorem respondToInvitation_accept_existing_member_conflict
    (db : DB) (inv : NetworkInvitation) (m : NetworkMembership)
    (hfind : findInvitation db inv.id = some inv)
    (hmem : findMembership db inv.networkId inv.invitedUserId = some m) :
    respondToInvitation db inv.invitedUserId inv.id "accept"
      = (db, Except.error (ApiError.conflict "Unique constraint failed")) := by
  simp only [respondToInvitation, insertMembership, hfind, hmem]
  simp

/-- Witness for C1: in the store where Bob already accepted invitation
11, a second accept is rejected with Conflict and changes nothing. -/
theorem respondToInvitation_accept_existing_member_conflict_witness :
    respondToInvitation acceptedDB 2 11 "accept"
      = (acceptedDB, Except.error (ApiError.conflict "Unique constraint failed")) :=
  respondToInvitation_accept_existing_member_conflict acceptedDB
    ⟨11, 10, 2, 1, "accepted", none⟩ ⟨10, 2, "member", "active"⟩ (by decide) (by decide)

/-- C2: for every authenticated caller and valid payload, createNetwork
succeeds and the resulting store holds exactly one membership for the
new network id — role owner, status active, userId the caller — created
by the same handler invocation as the network row. -/
theorem createNetwork_creates_owner_membership
    (db : DB) (caller : Nat) (input : NetworkInput)
    (hvalid : networkSchemaCheck input = true)
    (hwf : memNetIdsBounded db) :
    ∃ n : Network,
      (createNetwork db caller input).2 = Except.ok n ∧
      n.ownerId = caller ∧ n.id = db.nextId ∧
      (createNetwork db caller input).1.memberships.filter (fun m => m.networkId == n.id)
        = [{ networkId := n.id, userId := caller, role := "owner", status := "active" }] := by
  have hnone : findMembership { db with networks := db.networks ++ [{ id := db.nextId, name := input.name, description := input.description, ownerId := caller, themes := input.themes, logoUrl := input.logoUrl }], nextId := db.nextId + 1 } db.nextId caller = none := by
    rw [findMembership, List.find?_eq_none]
    intro m hm
    have := hwf m hm
    simp only [Bool.and_eq_true, beq_iff_eq, not_and]
    intro hEq
    omega
  refine ⟨{ id := db.nextId, name := input.name, description := input.description, ownerId := caller, themes := input.themes, logoUrl := input.logoUrl }, ?_⟩
  simp only [createNetwork, hvalid, insertMembership, hnone, Bool.not_true, Bool.false_eq_true, if_false]
  refine ⟨trivial, trivial, trivial, ?_⟩
  rw [List.filter_append]
  have h1 : db.memberships.filter (fun m => m.networkId == db.nextId) = [] := by
    rw [List.filter_eq_nil_iff]
    intro m hm
    have := hwf m hm
    simp only [beq_iff_eq]
    omega
  simp [h1]

/-- Witness for C2: creating a network in a fresh store with one
registered user yields the owner membership and nothing else. -/
theorem createNetwork_creates_owner_membership_witness :
    ∃ n : Network,
      (createNetwork (initDB [sampleUserA] 10) 1 sampleNetworkInput).2 = Except.ok n ∧
      n.ownerId = 1 ∧ n.id = 10 ∧
      (createNetwork (initDB [sampleUserA] 10) 1 sampleNetworkInput).1.memberships.filter
          (fun m => m.networkId == n.id)
        = [{ networkId := n.id, userId := 1, role := "owner", status := "active" }] :=
  createNetwork_creates_owner_membership (initDB [sampleUserA] 10) 1 sampleNetworkInput
    (by decide) (by intro m hm; simp [initDB] at hm)

/-- C3: in every store reachable from a fresh deployment by any sequence
of engine operations, at most one membership row exists per
(networkId, userId) pair. -/
theorem memberships_pair_unique_reachable
    (users : List User) (base : Nat) (ops : List EngineOp) :
    membershipsPairUnique (applyOps (initDB users base) ops) := by
  have hstep : ∀ db : DB, membershipsPairUnique db → membershipsPairUnique (applyOps db ops) := by
    induction ops with
    | nil => intro db h; exact h
    | cons op rest ih =>
      intro db h
      exact ih _ (memPairUnique_preserved db op h)
  exact hstep _ (by simp [membershipsPairUnique, initDB])

/-- C4: when the network exists, the caller is its owner and the message
passes validation, inviteUser fails with Conflict — and leaves the store
untouched, so no invitation row is created — as soon as an invitation
row for the pair exists (whatever its status) or the target already
holds a membership. -/
theorem inviteUser_conflict_on_existing_pair_or_membership
    (db : DB) (caller networkId targetUserId : Nat) (message : Option String) (n : Network)
    (hnet : findNetwork db networkId = some n)
    (howner : n.ownerId = caller)
    (hmsg : (match message with | none => true | some m => m.length ≤ 500) = true)
    (hdup : (db.invitations.find? (fun j => j.networkId == networkId && j.invitedUserId == targetUserId)).isSome
            ∨ (findMembership db networkId targetUserId).isSome) :
    ∃ msg, inviteUser db caller networkId targetUserId message
      = (db, Except.error (ApiError.conflict msg)) := by
  simp only [inviteUser, hnet, howner, bne_self_eq_false, hmsg, insertInvitation, Bool.not_true,
    Bool.false_eq_true, if_false]
  rcases hm : findMembership db networkId targetUserId with _ | m
  · rcases hi : db.invitations.find? (fun j => j.networkId == networkId && j.invitedUserId == targetUserId) with _ | i
    · rw [hm, hi] at hdup
      simp at hdup
    · exact ⟨"Unique constraint failed", by simp [hi]⟩
  · exact ⟨"User already member", by simp⟩

/-- Witness for C4: re-inviting Bob while his rejected invitation row
still exists fails with Conflict and adds no row. -/
theorem inviteUser_conflict_witness :
    ∃ msg, inviteUser scenarioDB 1 10 2 none
      = (scenarioDB, Except.error (ApiError.conflict msg)) :=
  inviteUser_conflict_on_existing_pair_or_membership scenarioDB 1 10 2 none sampleNetwork
    (by decide) (by decide) (by decide) (Or.inl (by decide))

/-- C5 counterexample: in the reachable store where Bob has rejected
invitation 11, accepting it afterwards succeeds, flips the row from
rejected to accepted and creates the membership — so a rejected
invitation is not final and does later yield a membership. -/
theorem rejected_invitation_later_accepted :
    (findInvitation scenarioDB 11).map (fun i => i.status) = some "rejected" ∧
    findMembership scenarioDB 10 2 = none ∧
    (respondToInvitation scenarioDB 2 11 "accept").2 = Except.ok () ∧
    (findInvitation (respondToInvitation scenarioDB 2 11 "accept").1 11).map (fun i => i.status)
      = some "accepted" ∧
    findMembership (respondToInvitation scenarioDB 2 11 "accept").1 10 2
      = some { networkId := 10, userId := 2, role := "member", status := "active" } := by
  decide

/-- C5 (amended): in every reachable store at most one invitation row
exists per (networkId, invitedUserId) pair, and once every row carrying
a given id is out of pending no further operation brings a row with that
id back to pending; the terminal statuses are however not final between
themselves — see the counterexample for a rejected invitation that a
later accept turns into accepted together with a membership. -/
theorem invitation_pair_unique_and_no_return_to_pending
    (users : List User) (base : Nat) (ops : List EngineOp) (op : EngineOp) (tid : Nat) :
    invitationsPairUnique (applyOps (initDB users base) ops) ∧
    ((∃ i ∈ (applyOps (initDB users base) ops).invitations, i.id = tid) →
      (∀ i ∈ (applyOps (initDB users base) ops).invitations, i.id = tid → i.status ≠ "pending") →
      ∀ i' ∈ (applyOp (applyOps (initDB users base) ops) op).invitations,
        i'.id = tid → i'.status ≠ "pending") := by
  have hpair : ∀ db : DB, invitationsPairUnique db → invitationsPairUnique (applyOps db ops) := by
    induction ops with
    | nil => intro db h; exact h
    | cons op0 rest ih =>
      intro db h
      exact ih _ (invPairUnique_preserved db op0 h)
  have hbound : ∀ db : DB, invIdsBounded db → invIdsBounded (applyOps db ops) := by
    clear hpair
    induction ops with
    | nil => intro db h; exact h
    | cons op0 rest ih =>
      intro db h
      exact ih _ (invIdsBounded_preserved db op0 h)
  constructor
  · exact hpair _ (by simp [invitationsPairUnique, initDB])
  · intro hex hnp
    refine nonPending_preserved _ op tid (hbound _ ?_) hex hnp
    intro i hi
    simp [initDB] at hi

/-- Witness for C5 (amended): with the rejected invitation 11 in the
scenario store, one more reject keeps every row with id 11 out of
pending. -/
theorem invitation_pair_unique_and_no_return_to_pending_witness :
    ({ id := 11, networkId := 10, invitedUserId := 2, inviterId := 1, status := "rejected",
       message := none } : NetworkInvitation).status ≠ "pending" :=
  (invitation_pair_unique_and_no_return_to_pending [sampleUserA, sampleUserB] 10 scenarioOps
      (EngineOp.respondToInvitation 2 11 "reject") 11).2
    (by decide) (by decide)
    { id := 11, networkId := 10, invitedUserId := 2, inviterId := 1, status := "rejected",
      message := none }
    (by decide) (by decide)

/-- C6 counterexample: Alice has isPublicProfile false and a stored
phone and contactEmail, yet viewing her profile as herself (viewer id
equal to target id) still returns the representation with phone and
contactEmail omitted: the route never reads the identity of the
requester, so the owner gets the redacted view too. -/
theorem viewProfile_owner_private_profile_hidden :
    sampleUserA.isPublicProfile = false ∧
    sampleUserA.phone = some "555-0100" ∧
    sampleUserA.contactEmail = some "alice@contact.example" ∧
    viewProfile (initDB [sampleUserA] 10) 1 1
      = Except.ok { id := 1, displayName := "Alice", bio := none, phone := none,
                    contactEmail := none, socialLinks := none, isPublicProfile := false } := by
  decide

/-- C6 (amended): viewProfile fails NotFound when the target is absent;
when the target has isPublicProfile false the returned representation
omits phone and contactEmail for EVERY viewer, the owner included; when
isPublicProfile is true the stored phone and contactEmail are returned
as stored. -/
theorem viewProfile_visibility (db : DB) (viewer targetId : Nat) :
    (∀ u, db.users.find? (fun v => v.id == targetId) = some u →
      (u.isPublicProfile = false →
        viewProfile db viewer targetId
          = Except.ok { id := u.id, displayName := u.displayName, bio := u.bio
                        phone := none, contactEmail := none
                        socialLinks := u.socialLinks, isPublicProfile := u.isPublicProfile }) ∧
      (u.isPublicProfile = true →
        viewProfile db viewer targetId
          = Except.ok { id := u.id, displayName := u.displayName, bio := u.bio
                        phone := u.phone, contactEmail := u.contactEmail
                        socialLinks := u.socialLinks, isPublicProfile := u.isPublicProfile })) ∧
    (db.users.find? (fun v => v.id == targetId) = none →
      viewProfile db viewer targetId = Except.error (ApiError.notFound "User not found")) := by
  constructor
  · intro u hu
    constructor
    · intro hpriv
      simp [viewProfile, hu, hpriv]
    · intro hpub
      simp [viewProfile, hu, hpub]
  · intro hnone
    simp [viewProfile, hnone]

/-- Witness for C6 (amended): a different viewer looking at the private
profile of Alice gets the redacted representation. -/
theorem viewProfile_visibility_witness :
    viewProfile (initDB [sampleUserA] 10) 2 1
      = Except.ok { id := 1, displayName := "Alice", bio := none, phone := none,
                    contactEmail := none, socialLinks := none, isPublicProfile := false } :=
  ((viewProfile_visibility (initDB [sampleUserA] 10) 2 1).1 sampleUserA (by decide)).1 (by decide)

/-- C7: after a successful deleteNetwork by the owner, the network row
is gone and no membership, invitation or application row referencing the
network remains — the cascade is complete. -/
theorem deleteNetwork_cascade_complete
    (db : DB) (caller networkId : Nat) (n : Network)
    (hnet : findNetwork db networkId = some n)
    (howner : n.ownerId = caller) :
    (deleteNetwork db caller networkId).2 = Except.ok () ∧
    findNetwork (deleteNetwork db caller networkId).1 networkId = none ∧
    (∀ m ∈ (deleteNetwork db caller networkId).1.memberships, m.networkId ≠ networkId) ∧
    (∀ i ∈ (deleteNetwork db caller networkId).1.invitations, i.networkId ≠ networkId) ∧
    (∀ a ∈ (deleteNetwork db caller networkId).1.applications, a.networkId ≠ networkId) := by
  simp only [deleteNetwork, hnet, howner, bne_self_eq_false, Bool.false_eq_true, if_false,
    cascadeDeleteNetwork]
  refine ⟨trivial, ?_, ?_, ?_, ?_⟩
  · rw [findNetwork, List.find?_eq_none]
    intro x hx
    have := List.mem_filter.mp hx
    simpa using this.2
  all_goals
    intro x hx
    have := List.mem_filter.mp hx
    simpa using this.2

/-- Witness for C7: deleting network 10 in the accepted-scenario store
succeeds and leaves nothing referencing it. -/
theorem deleteNetwork_cascade_complete_witness :
    (deleteNetwork acceptedDB 1 10).2 = Except.ok () ∧
    findNetwork (deleteNetwork acceptedDB 1 10).1 10 = none ∧
    (deleteNetwork acceptedDB 1 10).1.memberships = [] ∧
    (deleteNetwork acceptedDB 1 10).1.invitations = [] := by
  have h := deleteNetwork_cascade_complete acceptedDB 1 10 sampleNetwork (by decide) (by decide)
  exact ⟨h.1, h.2.1, by decide, by decide⟩

/-- C8: with the network present, removeMember fails Forbidden for a
caller other than the owner, fails ValidationError when the owner names
themselves, fails NotFound when no membership for the pair exists — each
failure leaving the store untouched — and on success deletes exactly the
named membership row: the pair is gone and every other row survives. -/
theorem removeMember_cases
    (db : DB) (caller networkId targetUserId : Nat) (n : Network)
    (hnet : findNetwork db networkId = some n) :
    (n.ownerId ≠ caller →
      removeMember db caller networkId targetUserId
        = (db, Except.error (ApiError.forbidden "Not authorized"))) ∧
    (n.ownerId = caller → targetUserId = caller →
      removeMember db caller networkId targetUserId
        = (db, Except.error (ApiError.validation "Cannot remove yourself"))) ∧
    (n.ownerId = caller → targetUserId ≠ caller →
      findMembership db networkId targetUserId = none →
      removeMember db caller networkId targetUserId
        = (db, Except.error (ApiError.notFound "Record not found"))) ∧
    (∀ m, n.ownerId = caller → targetUserId ≠ caller →
      findMembership db networkId targetUserId = some m →
      (removeMember db caller networkId targetUserId).2 = Except.ok () ∧
      findMembership (removeMember db caller networkId targetUserId).1 networkId targetUserId = none ∧
      (∀ m' ∈ db.memberships, (m'.networkId ≠ networkId ∨ m'.userId ≠ targetUserId) →
        m' ∈ (removeMember db caller networkId targetUserId).1.memberships) ∧
      (∀ m' ∈ (removeMember db caller networkId targetUserId).1.memberships, m' ∈ db.memberships)) := by
  refine ⟨?_, ?_, ?_, ?_⟩
  · intro hne
    simp only [removeMember, hnet]
    have : (n.ownerId != caller) = true := by simpa using hne
    simp [this]
  · intro he hself
    subst he hself
    simp [removeMember, hnet]
  · intro he hne hmemnone
    subst he
    have h2 : (targetUserId == n.ownerId) = false := by simpa using hne
    simp [removeMember, hnet, h2, hmemnone]
  · intro m he hne hmem
    subst he
    have h2 : (targetUserId == n.ownerId) = false := by simpa using hne
    simp only [removeMember, hnet, bne_self_eq_false, Bool.false_eq_true, if_false, h2, hmem,
      deleteMembership]
    refine ⟨trivial, ?_, ?_, ?_⟩
    · rw [findMembership, List.find?_eq_none]
      intro x hx
      have hfil := List.mem_filter.mp hx
      have : ¬x.networkId = networkId ∨ ¬x.userId = targetUserId := by simpa using hfil.2
      simp only [Bool.and_eq_true, beq_iff_eq, not_and]
      intro h1
      rcases this with h | h
      · exact absurd h1 h
      · exact h
    · intro m' hm' hkeep
      simp only [List.mem_filter]
      refine ⟨hm', ?_⟩
      rcases hkeep with h | h <;> simp [h]
    · intro m' hm'
      exact List.mem_of_mem_filter hm'

/-- Witness for C8: in the accepted-scenario store, a non-owner call is
Forbidden, owner self-removal is a ValidationError, and removing Bob
succeeds and deletes his membership. -/
theorem removeMember_cases_witness :
    removeMember acceptedDB 2 10 1
      = (acceptedDB, Except.error (ApiError.forbidden "Not authorized")) ∧
    removeMember acceptedDB 1 10 1
      = (acceptedDB, Except.error (ApiError.validation "Cannot remove yourself")) ∧
    (removeMember acceptedDB 1 10 2).2 = Except.ok () ∧
    findMembership (removeMember acceptedDB 1 10 2).1 10 2 = none := by
  have howner := removeMember_cases acceptedDB 1 10 2 sampleNetwork (by decide)
  have hother := removeMember_cases acceptedDB 2 10 1 sampleNetwork (by decide)
  have hself := removeMember_cases acceptedDB 1 10 1 sampleNetwork (by decide)
  have hsucc := howner.2.2.2 { networkId := 10, userId := 2, role := "member", status := "active" }
    (by decide) (by decide) (by decide)
  exact ⟨hother.1 (by decide), hself.2.1 (by decide) (by decide), hsucc.1, hsucc.2.1⟩

/-- C9: respondToApplication checks ownership only against the network
of the path and fetches the application by id alone, never comparing its
networkId with the path: an owner of network X approving an application
that belongs to a different network creates the membership in X for the
applicant and marks the application approved. -/
theorem respondToApplication_ignores_application_network
    (db : DB) (caller pathNetworkId appId : Nat) (n : Network) (app : NetworkApplication)
    (hnet : findNetwork db pathNetworkId = some n)
    (howner : n.ownerId = caller)
    (happ : findApplication db appId = some app)
    (hdiff : app.networkId ≠ pathNetworkId)
    (hnomem : findMembership db pathNetworkId app.applicantId = none) :
    (respondToApplication db caller pathNetworkId appId "approve").2 = Except.ok () ∧
    findMembership (respondToApplication db caller pathNetworkId appId "approve").1
        pathNetworkId app.applicantId
      = some { networkId := pathNetworkId, userId := app.applicantId, role := "member", status := "active" } ∧
    (findApplication (respondToApplication db caller pathNetworkId appId "approve").1 appId).map
        (fun a => a.status) = some "approved" := by
  have hid : (app.id == appId) = true :=
    @List.find?_some _ (fun a : NetworkApplication => a.id == appId) app db.applications happ
  have hidEq : app.id = appId := beq_iff_eq.mp hid
  have _hdiff := hdiff
  simp only [respondToApplication, hnet, howner, bne_self_eq_false, happ, insertMembership, hnomem,
    setApplicationStatus, beq_self_eq_true, Bool.true_or, Bool.not_true, Bool.false_eq_true,
    if_false, if_true]
  refine ⟨trivial, ?_, ?_⟩
  · rw [findMembership]
    simp only [List.find?_append]
    rw [findMembership] at hnomem
    rw [hnomem]
    simp
  · rw [findApplication]
    rw [List.find?_map]
    have hcomp : ((fun a => a.id == appId) ∘
        (fun a : NetworkApplication => if a.id == appId then { a with status := "approved" } else a))
        = (fun a : NetworkApplication => a.id == appId) := by
      funext a
      by_cases h : a.id = appId <;> simp [h]
    rw [hcomp]
    rw [findApplication] at happ
    rw [happ]
    simp [hidEq]

/-- Witness for C9: Alice, owner of network 10, approves application 12
that Cara filed to network 11; Cara becomes a member of network 10 and
the application is marked approved. -/
theorem respondToApplication_ignores_application_network_witness :
    (respondToApplication crossDB 1 10 12 "approve").2 = Except.ok () ∧
    findMembership (respondToApplication crossDB 1 10 12 "approve").1 10 3
      = some { networkId := 10, userId := 3, role := "member", status := "active" } ∧
    (findApplication (respondToApplication crossDB 1 10 12 "approve").1 12).map
        (fun a => a.status) = some "approved" :=
  respondToApplication_ignores_application_network crossDB 1 10 12
    ⟨10, "X", none, 1, ["t"], none⟩ ⟨12, 11, 3, none, "pending"⟩
    (by decide) (by decide) (by decide) (by decide) (by decide)

/-- C10: for every valid profile update of an existing caller,
updateProfile returns the entire updated User row — the very row stored
afterwards, with its passwordHash and email fields intact — rather than
a restricted profile projection. -/
theorem updateProfile_returns_full_user_row
    (db : DB) (caller : Nat) (p : ProfilePatch) (u : User)
    (hu : db.users.find? (fun v => v.id == caller) = some u)
    (hvalid : profileSchemaCheck p = true) :
    ∃ u1 : User,
      (updateProfile db caller p).2 = Except.ok u1 ∧
      (updateProfile db caller p).1.users.find? (fun v => v.id == caller) = some u1 ∧
      u1.passwordHash = u.passwordHash ∧ u1.email = u.email := by
  have hid : (u.id == caller) = true :=
    @List.find?_some _ (fun v : User => v.id == caller) u db.users hu
  have hidEq : u.id = caller := beq_iff_eq.mp hid
  refine ⟨applyProfilePatch u p, ?_, ?_, rfl, rfl⟩
  · simp [updateProfile, hvalid, hu]
  · simp only [updateProfile, hvalid, hu, Bool.not_true, Bool.false_eq_true, if_false]
    rw [List.find?_map]
    have hcomp : ((fun v => v.id == caller) ∘
        (fun v : User => if v.id == caller then applyProfilePatch u p else v))
        = (fun v : User => v.id == caller) := by
      funext v
      by_cases h : v.id = caller <;> simp [h, applyProfilePatch, hidEq]
    rw [hcomp, hu]
    simp [hidEq]

/-- Witness for C10: Alice updates her phone; the response is the full
stored User row with passwordHash and email still present. -/
theorem updateProfile_returns_full_user_row_witness :
    ∃ u1 : User,
      (updateProfile (initDB [sampleUserA] 10) 1 ⟨some "555-0199", none, none, none, none⟩).2
        = Except.ok u1 ∧
      (updateProfile (initDB [sampleUserA] 10) 1 ⟨some "555-0199", none, none, none, none⟩).1.users.find?
          (fun v => v.id == 1) = some u1 ∧
      u1.passwordHash = sampleUserA.passwordHash ∧ u1.email = sampleUserA.email :=
  updateProfile_returns_full_user_row (initDB [sampleUserA] 10) 1
    ⟨some "555-0199", none, none, none, none⟩ sampleUserA (by decide) (by decide)

end HWTube
